import Mathlib

/-!
Shallow embedding of
packages/@tailwindcss-upgrade/src/codemods/template/migrate-arbitrary-utilities.ts.

The design-system collaborator (candidate parsing and printing, utility
signatures, the class list, theme values, CSS rendering) is external to the
module and is modelled as a structure of functions.  JavaScript object mutation
is modelled by explicit field updates, the module-level replacement cache by
explicit state passing, and the self-recursion of the canonicalization step by
a fuel parameter.
-/

/-- Modelled from the spec: a candidate modifier (the Candidate type lives in
candidate.ts, outside these sources); a modifier is either named or
arbitrary.  Only the shape used by this module is modelled. -/
inductive CandidateModifier where
  | named (value : String)
  | arbitrary (value : String)
deriving DecidableEq

/-- Modelled from the spec: printModifier from candidate.ts renders a modifier
in its printed slash form (a named modifier as /value, an arbitrary one as
/[value]). -/
def printModifier : CandidateModifier → String
  | .named v => "/" ++ v
  | .arbitrary v => "/[" ++ v ++ "]"

/-- Modelled from the spec: the value carried by a functional candidate, either
a named (bare) value or an arbitrary freeform value.  Only the fields read by
this module (kind and value) are modelled. -/
inductive CandidateValue where
  | named (value : String)
  | arbitrary (value : String)
deriving DecidableEq

/-- The text of a candidate value (the .value field read at line 216). -/
def CandidateValue.value : CandidateValue → String
  | .named v => v
  | .arbitrary v => v

/-- Modelled from the spec: a parsed utility-class unit (candidate.ts, outside
these sources).  kind static carries a root; kind functional carries a root, an
optional value and an optional modifier; kind arbitrary carries a property, a
freeform value string and an optional modifier.  Every kind carries variants
and an important flag.  Variants are never inspected by this module, so a
variant is represented by an opaque string. -/
inductive Candidate where
  | static (root : String) (variants : List String) (important : Bool)
  | functional (root : String) (value : Option CandidateValue)
      (modifier : Option CandidateModifier) (variants : List String)
      (important : Bool)
  | arbitrary (property : String) (value : String)
      (modifier : Option CandidateModifier) (variants : List String)
      (important : Bool)
deriving DecidableEq

/-- The variants list of a candidate. -/
def Candidate.variants : Candidate → List String
  | .static _ vs _ => vs
  | .functional _ _ _ vs _ => vs
  | .arbitrary _ _ _ vs _ => vs

/-- The important flag of a candidate. -/
def Candidate.important : Candidate → Bool
  | .static _ _ i => i
  | .functional _ _ _ _ i => i
  | .arbitrary _ _ _ _ i => i

/-- The modifier of a candidate (a static candidate has none). -/
def Candidate.modifier : Candidate → Option CandidateModifier
  | .static _ _ _ => none
  | .functional _ _ m _ _ => m
  | .arbitrary _ _ m _ _ => m

/-- Overwrite the variants of a candidate (models the JavaScript assignment
candidate.variants = ...). -/
def Candidate.setVariants : Candidate → List String → Candidate
  | .static r _ i, vs => .static r vs i
  | .functional r v m _ i, vs => .functional r v m vs i
  | .arbitrary p v m _ i, vs => .arbitrary p v m vs i

/-- Overwrite the important flag of a candidate. -/
def Candidate.setImportant : Candidate → Bool → Candidate
  | .static r vs _, i => .static r vs i
  | .functional r v m vs _, i => .functional r v m vs i
  | .arbitrary p v m vs _, i => .arbitrary p v m vs i

/-- Overwrite the modifier of a candidate.  On a static candidate the stray
modifier property a JavaScript Object.assign would add is never read by any
printer or consumer, so it is dropped. -/
def Candidate.setModifier : Candidate → Option CandidateModifier → Candidate
  | .static r vs i, _ => .static r vs i
  | .functional r v _ vs i, m => .functional r v m vs i
  | .arbitrary p v _ vs i, m => .arbitrary p v m vs i

/-- Modelled from the spec: a node of the parsed value-expression tree
(ValueParser lives in value-parser, outside these sources).  A substitution
variable reference is a function node named var whose first child carries the
variable name. -/
inductive ValueNode where
  | word (value : String)
  | separator (value : String)
  | func (value : String) (nodes : List ValueNode)

/-- The value field of a value-expression node. -/
def ValueNode.value : ValueNode → String
  | .word v => v
  | .separator v => v
  | .func v _ => v

/-- Helper for substring search over character lists. -/
def containsAux (pat : List Char) : List Char → Bool
  | [] => pat.isEmpty
  | a :: t => pat.isPrefixOf (a :: t) || containsAux pat t

/-- Substring containment on strings; models String.prototype.includes and the
variable regular expression tests of the source (see varUsedOk). -/
def strContains (s pat : String) : Bool :=
  containsAux pat.toList s.toList

/-- Models String.prototype.startsWith. -/
def strStartsWith (s pre : String) : Bool :=
  pre.toList.isPrefixOf s.toList

/-- The design-system collaborator interface consumed by this module.
parseCandidate, printCandidate, the computed-signature table (signatures),
getClassList (classList), the functional utility roots, resolveThemeValue,
the theme prefix (pfx, none models a null prefix) and candidatesToCss are the
external collaborators of spec section 6.  dimensions (the dimension parser),
numToString (JavaScript number printing), validSpacingMultiplier and parseValue
(ValueParser.parse) stand for repository helpers that are outside these
sources; they are modelled from the spec at their interface boundary. -/
structure DesignSystem where
  parseCandidate : String → List Candidate
  printCandidate : Candidate → String
  signatures : String → Option String
  classList : List (String × List String)
  functionalRoots : List String
  resolveThemeValue : String → Option String
  pfx : Option String
  candidatesToCss : List String → List String
  dimensions : String → Option (ℚ × String)
  numToString : ℚ → String
  validSpacingMultiplier : String → Bool
  parseValue : String → List ValueNode

/-- The computed CSS text of the replacement candidate (lines 316-318):
candidatesToCss applied to the printed candidate, joined with newlines. -/
def replacementAsCss (ds : DesignSystem) (repl : Candidate) : String :=
  String.intercalate "\n" (ds.candidatesToCss [ds.printCandidate repl])

/-- The value text examined by allVariablesAreUsed (lines 295-314): the
arbitrary value of a functional candidate, or the value of an arbitrary
property candidate, but only when it contains the substring var(-- ; otherwise
the migration is treated as trivially safe. -/
def varValue? : Candidate → Option String
  | .functional _ (some (.arbitrary v)) _ _ _ =>
      if strContains v "var(--" then some v else none
  | .arbitrary _ v _ _ _ =>
      if strContains v "var(--" then some v else none
  | _ => none

/-- The per-variable test of lines 324-331.  The source tests the regular
expression var\(VARIABLE[,)]\s* (whose trailing \s* matches the empty string,
so it does not constrain acceptance) and the substring VARIABLE: .  For the
variable names produced by CSS custom properties (letters, digits, hyphens,
underscores) the regular expression holds exactly when the text contains
var(VARIABLE, or var(VARIABLE) as a substring. -/
def varUsedOk (css vname : String) : Bool :=
  (strContains css ("var(" ++ vname ++ ",")
      || strContains css ("var(" ++ vname ++ ")"))
    && !(strContains css (vname ++ ":"))

/-- The ValueParser.walk of lines 321-336: a depth-first visit of the value
tree that applies the per-variable test to every function node named var and
stops at the first failure.  A var node with no argument is skipped (the
source would fail there reading nodes[0].value of an empty list; such a node
cannot occur in a parsed well-formed value).  Since stopping at the first
failing variable and conjoining all tests produce the same boolean, the walk
is the conjunction below. -/
def walkCheck (p : String → Bool) : List ValueNode → Bool
  | [] => true
  | .word _ :: rest => walkCheck p rest
  | .separator _ :: rest => walkCheck p rest
  | .func v ns :: rest =>
      (if v = "var" then
        match ns with
        | [] => true
        | n :: _ => p n.value
      else true)
        && (walkCheck p ns && walkCheck p rest)

/-- The variable names collected by the same depth-first visit, in visit
order; walkCheck p l is the conjunction of p over collectVars l. -/
def collectVars : List ValueNode → List String
  | [] => []
  | .word _ :: rest => collectVars rest
  | .separator _ :: rest => collectVars rest
  | .func v ns :: rest =>
      (if v = "var" then
        match ns with
        | [] => []
        | n :: _ => [n.value]
      else [])
        ++ (collectVars ns ++ collectVars rest)

/-- allVariablesAreUsed (lines 290-339): when the original candidate value
contains variable references, every variable reference found in the parsed
value must still be referenced in the replacement's computed CSS and must not
be redefined there. -/
def allVariablesAreUsed (ds : DesignSystem) (candidate replacement : Candidate) :
    Bool :=
  match varValue? candidate with
  | none => true
  | some value =>
      walkCheck (varUsedOk (replacementAsCss ds replacement)) (ds.parseValue value)

/-- The (signature, class name) pairs contributed to the precomputed utility
lookup (lines 18-43), in enumeration order: every class with a string
signature, and for such a class every supported modifier that is not a valid
spacing multiplier and whose class/modifier combination has a string
signature. -/
def utilityEntries (ds : DesignSystem) : List (String × String) :=
  ds.classList.flatMap fun ce =>
    match ds.signatures ce.1 with
    | none => []
    | some s =>
        (s, ce.1) ::
          ce.2.flatMap fun m =>
            if ds.validSpacingMultiplier m then []
            else
              match ds.signatures (ce.1 ++ "/" ++ m) with
              | some s2 => [(s2, ce.1 ++ "/" ++ m)]
              | none => []

/-- preComputedUtilities.get(ds).get(sig): the bucket of class names whose
signature equals sig, in enumeration order (a DefaultMap, so a missing
signature yields the empty bucket). -/
def preComputedUtilities (ds : DesignSystem) (sig : String) : List String :=
  ((utilityEntries ds).filter fun e => e.1 == sig).map fun e => e.2

/-- The spacing table of lines 49-67: resolve the --spacing theme value, parse
it as a dimension, and map an input dimension in the same unit to its
quotient.  none models a design system whose table is null. -/
def spacingTable (ds : DesignSystem) : Option (String → Option ℚ) :=
  match ds.resolveThemeValue "--spacing" with
  | none => none
  | some sm =>
      match ds.dimensions sm with
      | none => none
      | some vu =>
          some fun input =>
            match ds.dimensions input with
            | none => none
            | some mvu => if mvu.2 ≠ vu.2 then none else some (mvu.1 / vu.1)

/-- spacing.get(designSystem)?.get(value) at line 219, compared with !== null
at line 240.  When the table itself is null the optional chain produces
undefined, which is not strictly equal to null, so the branch is still taken
and the interpolated multiplier text is the string undefined: none models null
(branch skipped), some none models undefined, some (some q) a number. -/
def spacingMul? (ds : DesignSystem) (value : String) : Option (Option ℚ) :=
  match spacingTable ds with
  | none => some none
  | some f =>
      match f value with
      | none => none
      | some q => some (some q)

/-- The text a spacing multiplier contributes to a candidate template string:
JavaScript number printing for a number, the string undefined for the
undefined produced by a null table. -/
def mulString (ds : DesignSystem) : Option ℚ → String
  | some q => ds.numToString q
  | none => "undefined"

/-- The helper parseCandidate of lines 278-284: reapply the design-system
prefix (when configured, nonempty and not already present) before parsing. -/
def parseCandidatePrefixed (ds : DesignSystem) (input : String) : List Candidate :=
  match ds.pfx with
  | some p =>
      if p != "" && !(strStartsWith input (p ++ ":")) then
        ds.parseCandidate (p ++ ":" ++ input)
      else ds.parseCandidate input
  | none => ds.parseCandidate input

/-- The raw value extracted at lines 215-217: the freeform string of an
arbitrary property, or the inner value of a functional candidate (null when
the functional candidate has no value; a static candidate never reaches this
code path). -/
def rawValue? : Candidate → Option String
  | .arbitrary _ v _ _ _ => some v
  | .functional _ (some val) _ _ _ => some val.value
  | _ => none

/-- The candidate template strings generated for one functional root (lines
221-273), in yield order.  The bare-value-with-modifier template at line 231
interpolates the modifier object itself into the template string; JavaScript
stringifies a plain object as [object Object], so that is the literal text the
source produces there (the other modifier templates go through
printModifier). -/
def rootCandidateStrings (value : String) (modifier : Option CandidateModifier)
    (mul : Option (Option ℚ)) (ds : DesignSystem) (root : String) :
    List String :=
  [root ++ "-" ++ value]
    ++ (match modifier with
        | some _ => [root ++ "-" ++ value ++ "[object Object]"]
        | none => [])
    ++ (match mul with
        | some mv =>
            [root ++ "-" ++ mulString ds mv]
              ++ (match modifier with
                  | some m => [root ++ "-" ++ mulString ds mv ++ printModifier m]
                  | none => [])
        | none => [])
    ++ [root ++ "-[" ++ value ++ "]"]
    ++ (match modifier with
        | some m => [root ++ "-[" ++ value ++ "]" ++ printModifier m]
        | none => [])

/-- The functional-utility derivation of lines 212-274: extract the raw value,
resolve the spacing multiplier once, and for every functional root parse each
generated template string in order. -/
def functionalDerivation (ds : DesignSystem) (candidate : Candidate) :
    List Candidate :=
  match rawValue? candidate with
  | none => []
  | some value =>
      let mul := spacingMul? ds value
      ds.functionalRoots.flatMap fun root =>
        (rootCandidateStrings value candidate.modifier mul ds root).flatMap
          (parseCandidatePrefixed ds)

/-- tryReplacements for a candidate that carries no modifier: with no modifier
the modifier-stripped fallback of lines 188-201 is skipped, leaving the
ambiguity guard, the exact bucket match, and the functional derivation. -/
def tryReplacementsNoFallback (ds : DesignSystem) (targetSignature : String)
    (candidate : Candidate) : List Candidate :=
  match preComputedUtilities ds targetSignature with
  | [] => functionalDerivation ds candidate
  | [r] => parseCandidatePrefixed ds r
  | _ => []

/-- The candidate generator tryReplacements of lines 169-275, as the list of
its yields in order.  A bucket with more than one entry yields nothing (lines
173-180).  An empty bucket first runs the modifier-stripped fallback (lines
188-201) and then the functional derivation (lines 211-274).  A singleton
bucket yields the parses of its entry (lines 205-209).  The source recursion
of the fallback always passes a candidate whose modifier is null, for which
the fallback branch is vacuous, so that single recursive call is unrolled
exactly into tryReplacementsNoFallback (the lemma
tryReplacements_eq_noFallback below checks the unrolling). -/
def tryReplacements (ds : DesignSystem) (targetSignature : String)
    (candidate : Candidate) : List Candidate :=
  match preComputedUtilities ds targetSignature with
  | [] =>
      (match candidate.modifier with
        | some m =>
            match ds.signatures (ds.printCandidate (candidate.setModifier none)) with
            | some sigNoMod =>
                (tryReplacementsNoFallback ds sigNoMod
                    (candidate.setModifier none)).map
                  fun r => r.setModifier (some m)
            | none => []
        | none => [])
        ++ functionalDerivation ds candidate
  | [r] => parseCandidatePrefixed ds r
  | _ => []

/-- The base (target) candidate of lines 117-119: important forced false,
variants cleared. -/
def baseCandidate (c : Candidate) : Candidate :=
  (c.setImportant false).setVariants []

/-- The printed base candidate, the cache key of line 121. -/
def baseStr (ds : DesignSystem) (c : Candidate) : String :=
  ds.printCandidate (baseCandidate c)

/-- The acceptance loop of lines 138-148: the first generated candidate whose
printed text has the target signature and which passes the variable safety
check. -/
def firstValid (ds : DesignSystem) (targetSignature : String)
    (original : Candidate) (cands : List Candidate) : Option Candidate :=
  cands.find? fun r =>
    (ds.signatures (ds.printCandidate r) == some targetSignature)
      && allVariablesAreUsed ds original r

/-- The whole replacement search for one eligible canonical candidate (lines
133-148): compute the base signature (give up when it is not a string) and
accept the first valid generated replacement. -/
def searchResult (ds : DesignSystem) (c : Candidate) : Option Candidate :=
  match ds.signatures (baseStr ds c) with
  | none => none
  | some targetSignature =>
      firstValid ds targetSignature c
        (tryReplacements ds targetSignature (baseCandidate c))

/-- Reattach the variants and important flag of the original candidate to a
replacement (lines 126-129 on the cache-hit path and 156-157 on the store
path). -/
def reattach (c repl : Candidate) : Candidate :=
  (repl.setVariants c.variants).setImportant c.important

/-- The module-level base-replacements cache, per design system: association
list from printed base-candidate text to the stored candidate; a new entry
shadows older ones exactly as Map.prototype.set overwrites. -/
abbrev Cache := List (String × Candidate)

/-- Map.prototype.get on the cache. -/
def lookupCache (cache : Cache) (k : String) : Option Candidate :=
  match cache.find? fun e => e.1 == k with
  | some e => some e.2
  | none => none

/-- The eligibility filter of lines 79-86: only an arbitrary property, or a
functional utility carrying an arbitrary value, is processed. -/
def eligible : Candidate → Bool
  | .arbitrary _ _ _ _ _ => true
  | .functional _ (some (.arbitrary _)) _ _ _ => true
  | _ => false

/-- The outcome of processing one parsed candidate in the main loop. -/
inductive StepOut where
  | skip
  | canon (s : String)
  | done (out : String) (cache2 : Cache)
deriving DecidableEq

/-- One iteration of the loop over parsed candidates (lines 77-164).  An
ineligible candidate is skipped (lines 79-86).  A candidate whose printed form
differs from the input triggers the canonicalization recursion (lines
104-107).  On a cache hit the cached candidate is cloned, the current variants
and important flag are reattached, and its printed form is returned with the
cache unchanged (lines 121-131).  Otherwise a missing base signature or an
exhausted search skips to the next parse (line 135 and loop exit), and an
accepted replacement is returned after reattaching variants and important.
The source clones the replacement before Map.set and then mutates that same
stored object when reattaching (lines 150-157), so the object left in the
cache is the reattached replacement, and the returned text is its printed
form (Object.assign at line 160 overwrites every printed field of the
candidate with the replacement's). -/
def stepCandidate (ds : DesignSystem) (cache : Cache) (raw : String)
    (c : Candidate) : StepOut :=
  if eligible c = false then .skip
  else if ds.printCandidate c ≠ raw then .canon (ds.printCandidate c)
  else
    match lookupCache cache (baseStr ds c) with
    | some cached => .done (ds.printCandidate (reattach c cached)) cache
    | none =>
        match searchResult ds c with
        | some r => .done (ds.printCandidate (reattach c r))
            ((baseStr ds c, reattach c r) :: cache)
        | none => .skip

/-- The loop over parsed candidates: apply stepCandidate to each parse in
order; skip moves on, canon hands the canonicalized text to the recursive
call, done returns.  When every parse is exhausted the input text is returned
unchanged with the cache untouched (line 167). -/
def processList (ds : DesignSystem) (recur : Cache → String → String × Cache)
    (cache : Cache) (raw : String) : List Candidate → String × Cache
  | [] => (raw, cache)
  | c :: rest =>
      match stepCandidate ds cache raw c with
      | .skip => processList ds recur cache raw rest
      | .canon s => recur cache s
      | .done out cache2 => (out, cache2)

/-- migrateArbitraryUtilities with an explicit recursion bound for the
canonicalization self-call of line 106 (the source recursion is unbounded; it
terminates because printing is idempotent, and with fuel at least two the fuel
never runs out under that idempotence, see the termination theorem).  The
cache is threaded explicitly. -/
def migrateFuel (ds : DesignSystem) : Nat → Cache → String → String × Cache
  | 0, cache, raw => (raw, cache)
  | fuel + 1, cache, raw =>
      processList ds (migrateFuel ds fuel) cache raw (ds.parseCandidate raw)

/-- The entry point migrateArbitraryUtilities (lines 69-167): returns the
migrated (or original) token text together with the updated cache. -/
def migrateArbitraryUtilities (ds : DesignSystem) (cache : Cache)
    (rawCandidate : String) : String × Cache :=
  migrateFuel ds (rawCandidate.length + 2) cache rawCandidate

/-- A design system whose collaborators all fail or yield nothing; the other
concrete systems below override individual fields.  Used to instantiate the
hypotheses of the general theorems on concrete inputs. -/
def dsBase : DesignSystem where
  parseCandidate := fun _ => []
  printCandidate := fun _ => ""
  signatures := fun _ => none
  classList := []
  functionalRoots := []
  resolveThemeValue := fun _ => none
  pfx := none
  candidatesToCss := fun _ => []
  dimensions := fun _ => none
  numToString := fun _ => ""
  validSpacingMultiplier := fun _ => false
  parseValue := fun _ => []

/-- An arbitrary-property candidate, printed as [a:1] below. -/
def cA : Candidate := .arbitrary "a" "1" none [] false

/-- The candidate cA carrying a variant and the important flag. -/
def cAV : Candidate := .arbitrary "a" "1" none ["hover"] true

/-- An arbitrary-property candidate, printed as u1root-1 below. -/
def cB : Candidate := .arbitrary "c" "2" none [] false

/-- A static candidate, printed as u1root-2 below. -/
def cU2 : Candidate := .static "s" [] false

/-- A static candidate, printed as u1 below. -/
def cU1 : Candidate := .static "u1" [] false

/-- A static (hence ineligible) candidate. -/
def cS0 : Candidate := .static "s0" [] false

/-- A design system with two catalog entries sharing one signature: parsing
[a:1] yields cA, whose base signature T owns the bucket of the two class
names ca and cb. -/
def dsC3 : DesignSystem := { dsBase with
  parseCandidate := fun s => if s = "[a:1]" then [cA] else []
  printCandidate := fun c => if c = cA then "[a:1]" else ""
  signatures := fun s =>
    if s = "[a:1]" ∨ s = "ca" ∨ s = "cb" then some "T" else none
  classList := [("ca", []), ("cb", [])] }

/-- The original candidate of the variable-safety counterexample: an arbitrary
property whose value references the variable --x with fallback 1px. -/
def candC4 : Candidate := .arbitrary "color" "var(--x,1px)" none [] false

/-- The examined replacement of the variable-safety counterexample. -/
def replC4 : Candidate := .static "r" [] false

/-- A design system whose computed CSS for the replacement references --x with
the different fallback 2px, and whose value parser returns the reference tree
of var(--x,1px). -/
def dsC4 : DesignSystem := { dsBase with
  printCandidate := fun _ => "r"
  candidatesToCss := fun _ => ["color: var(--x,2px)"]
  parseValue := fun s =>
    if s = "var(--x,1px)" then
      [ValueNode.func "var"
        [ValueNode.word "--x", ValueNode.separator ",", ValueNode.word "1px"]]
    else [] }

/-- A design system where hover:[a:1] parses to cAV (a variant plus the
important flag), whose base [a:1] has the same signature S1 as the single
catalog entry u1; migrating it stores a cache entry created from a token with
a variant and the important flag. -/
def dsC6 : DesignSystem := { dsBase with
  parseCandidate := fun s =>
    if s = "hover:[a:1]" then [cAV] else if s = "u1" then [cU1] else []
  printCandidate := fun c =>
    if c = cAV then "hover:[a:1]" else if c = cA then "[a:1]"
    else if c = cU1 then "u1"
    else if c = Candidate.static "u1" ["hover"] true then "hover:u1!" else ""
  signatures := fun s =>
    if s = "[a:1]" ∨ s = "u1" then some "S1" else none
  classList := [("u1", [])] }

/-- A design system where [a:1] parses ambiguously to the static candidate cS0
followed by the eligible cA, and cA has the named equivalent u1: the engine
skips the ineligible first parse and rewrites through the second one. -/
def dsC7 : DesignSystem := { dsBase with
  parseCandidate := fun s =>
    if s = "[a:1]" then [cS0, cA] else if s = "u1" then [cU1] else []
  printCandidate := fun c =>
    if c = cA then "[a:1]" else if c = cU1 then "u1" else if c = cS0 then "s0"
    else ""
  signatures := fun s =>
    if s = "[a:1]" ∨ s = "u1" then some "S1" else none
  classList := [("u1", [])] }

/-- A design system on which the pipeline is not idempotent: [a:1] parses to
cA (value 1) and is rewritten through the functional root u1root to the text
u1root-1; that text parses to the arbitrary candidate cB (value 2), which a
second pass rewrites to u1root-2.  Printing is idempotent here: every printed
text re-parses to a candidate printing to the same text. -/
def dsC9 : DesignSystem := { dsBase with
  parseCandidate := fun s =>
    if s = "[a:1]" then [cA] else if s = "u1root-1" then [cB]
    else if s = "u1root-2" then [cU2] else []
  printCandidate := fun c =>
    if c = cA then "[a:1]" else if c = cB then "u1root-1"
    else if c = cU2 then "u1root-2" else ""
  signatures := fun s =>
    if s = "[a:1]" ∨ s = "u1root-1" ∨ s = "u1root-2" then some "S1" else none
  functionalRoots := ["u1root"] }

theorem setVariants_variants (c : Candidate) (vs : List String) :
    (c.setVariants vs).variants = vs := by
  cases c <;> rfl

theorem setImportant_important (c : Candidate) (i : Bool) :
    (c.setImportant i).important = i := by
  cases c <;> rfl

theorem reattach_variants (c r : Candidate) :
    (reattach c r).variants = c.variants := by
  cases r <;> rfl

theorem reattach_important (c r : Candidate) :
    (reattach c r).important = c.important := by
  cases r <;> rfl

theorem reattach_overwrite (c r : Candidate) (vs : List String) (i : Bool) :
    reattach c ((r.setVariants vs).setImportant i) = reattach c r := by
  cases r <;> rfl

/-- The unrolling of the source's fallback recursion is exact: on a candidate
with no modifier, tryReplacements coincides with tryReplacementsNoFallback. -/
theorem tryReplacements_eq_noFallback (ds : DesignSystem) (sig : String)
    (c : Candidate) (h : c.modifier = none) :
    tryReplacements ds sig c = tryReplacementsNoFallback ds sig c := by
  unfold tryReplacements tryReplacementsNoFallback
  cases hb : preComputedUtilities ds sig with
  | nil => simp [h]
  | cons a t => cases t <;> simp

/-- A bucket with at least two entries makes the generator yield nothing. -/
theorem tryReplacements_nil_of_ambiguous (ds : DesignSystem) (sig : String)
    (c : Candidate) (h : 2 ≤ (preComputedUtilities ds sig).length) :
    tryReplacements ds sig c = [] := by
  unfold tryReplacements
  cases hb : preComputedUtilities ds sig with
  | nil => rw [hb] at h; simp at h
  | cons a t =>
      cases t with
      | nil => rw [hb] at h; simp at h
      | cons b t2 => simp

/-- An accepted candidate passed both acceptance tests. -/
theorem firstValid_some (ds : DesignSystem) (sig : String) (orig : Candidate)
    (cands : List Candidate) (r : Candidate)
    (h : firstValid ds sig orig cands = some r) :
    ds.signatures (ds.printCandidate r) = some sig ∧
      allVariablesAreUsed ds orig r = true := by
  unfold firstValid at h
  have hp := List.find?_some h
  simpa [Bool.and_eq_true, beq_iff_eq] using hp

/-- Conditions under which one parsed candidate is skipped. -/
theorem stepCandidate_skip_of (ds : DesignSystem) (cache : Cache) (raw : String)
    (c : Candidate)
    (h : eligible c = false ∨
      (ds.printCandidate c = raw ∧ lookupCache cache (baseStr ds c) = none ∧
        searchResult ds c = none)) :
    stepCandidate ds cache raw c = .skip := by
  unfold stepCandidate
  rcases h with h | ⟨h1, h2, h3⟩
  · simp [h]
  · cases he : eligible c
    · simp [he]
    · simp [he, h1, h2, h3]

theorem stepCandidate_canon_elim (ds : DesignSystem) (cache : Cache)
    (raw : String) (c : Candidate) (s : String)
    (h : stepCandidate ds cache raw c = .canon s) :
    eligible c = true ∧ s = ds.printCandidate c ∧ ds.printCandidate c ≠ raw := by
  unfold stepCandidate at h
  by_cases he : eligible c = false
  · simp [he] at h
  · by_cases hp : ds.printCandidate c = raw
    · simp [he, hp] at h
      cases hl : lookupCache cache (baseStr ds c) with
      | some v => rw [hl] at h; simp at h
      | none =>
          rw [hl] at h
          cases hs : searchResult ds c with
          | some r => rw [hs] at h; simp at h
          | none => rw [hs] at h; simp at h
    · simp [he, hp] at h
      exact ⟨by simpa using he, h.symm, hp⟩

/-- A returned result comes either from a cache hit (cache unchanged) or from
an accepted search result stored under the base key; either way the returned
text is the printed reattached candidate. -/
theorem stepCandidate_done_elim (ds : DesignSystem) (cache : Cache)
    (raw : String) (c : Candidate) (out : String) (cache2 : Cache)
    (h : stepCandidate ds cache raw c = .done out cache2) :
    (cache2 = cache ∧ ∃ v, lookupCache cache (baseStr ds c) = some v ∧
        out = ds.printCandidate (reattach c v)) ∨
    (∃ r, searchResult ds c = some r ∧
        cache2 = (baseStr ds c, reattach c r) :: cache ∧
        out = ds.printCandidate (reattach c r)) := by
  unfold stepCandidate at h
  by_cases he : eligible c = false
  · simp [he] at h
  · by_cases hp : ds.printCandidate c = raw
    · simp [he, hp] at h
      cases hl : lookupCache cache (baseStr ds c) with
      | some v =>
          rw [hl] at h
          simp at h
          exact Or.inl ⟨h.2.symm, v, rfl, h.1.symm⟩
      | none =>
          rw [hl] at h
          cases hs : searchResult ds c with
          | some r =>
              rw [hs] at h
              simp at h
              exact Or.inr ⟨r, rfl, h.2.symm, h.1.symm⟩
          | none => rw [hs] at h; simp at h
    · simp [he, hp] at h

/-- If every parsed candidate is skipped, the loop returns the input text with
the cache untouched. -/
theorem processList_skip_all (ds : DesignSystem)
    (recur : Cache → String → String × Cache) (cache : Cache) (raw : String)
    (l : List Candidate) (h : ∀ c ∈ l, stepCandidate ds cache raw c = .skip) :
    processList ds recur cache raw l = (raw, cache) := by
  induction l with
  | nil => rfl
  | cons c rest ih =>
      have hc := h c (by simp)
      simp only [processList, hc]
      exact ih fun x hx => h x (by simp [hx])

/-- If every parsed candidate is skipped, the whole call is a no-op for any
fuel. -/
theorem migrateFuel_noop (ds : DesignSystem) (fuel : Nat) (cache : Cache)
    (raw : String)
    (h : ∀ c ∈ ds.parseCandidate raw, stepCandidate ds cache raw c = .skip) :
    migrateFuel ds fuel cache raw = (raw, cache) := by
  cases fuel with
  | zero => rfl
  | succ n => exact processList_skip_all ds _ cache raw _ h

/-- The loop result only depends on the recursive call through the printed
forms of eligible non-canonical candidates. -/
theorem processList_congr (ds : DesignSystem)
    (recur recur2 : Cache → String → String × Cache) (cache : Cache)
    (raw : String) (l : List Candidate)
    (h : ∀ c ∈ l, eligible c = true → ds.printCandidate c ≠ raw →
      recur cache (ds.printCandidate c) = recur2 cache (ds.printCandidate c)) :
    processList ds recur cache raw l = processList ds recur2 cache raw l := by
  induction l with
  | nil => rfl
  | cons c rest ih =>
      simp only [processList]
      cases hs : stepCandidate ds cache raw c with
      | skip => exact ih fun x hx => h x (by simp [hx])
      | canon s =>
          obtain ⟨he, hseq, hne⟩ := stepCandidate_canon_elim ds cache raw c s hs
          rw [hseq]
          exact h c (by simp) he hne
      | done out cache2 => rfl

/-- The early-stopping walk equals the conjunction of the per-variable test
over the variables it visits. -/
theorem walkCheck_eq_all (p : String → Bool) (l : List ValueNode) :
    walkCheck p l = (collectVars l).all p := by
  induction l using walkCheck.induct p with
  | case1 => simp [walkCheck, collectVars]
  | case2 v rest ih => simp only [walkCheck, collectVars]; exact ih
  | case3 v rest ih => simp only [walkCheck, collectVars]; exact ih
  | case4 v ns rest ih1 ih2 =>
      cases ns with
      | nil =>
          simp only [walkCheck, collectVars, List.all_append, ih1, ih2]
          by_cases hv : v = "var" <;> simp [hv, Bool.and_assoc]
      | cons n t =>
          simp only [walkCheck, collectVars, List.all_append, ih1, ih2]
          by_cases hv : v = "var" <;> simp [hv, Bool.and_assoc]

/-- The loop either leaves the cache alone or pushes exactly one reattached
entry whose printed form is the returned text, provided the recursive call
does the same. -/
theorem processList_cacheShape (ds : DesignSystem)
    (recur : Cache → String → String × Cache) (cache : Cache) (raw : String)
    (l : List Candidate)
    (hr : ∀ cch s, (recur cch s).2 = cch ∨
      ∃ k c r, (recur cch s).2 = (k, reattach c r) :: cch ∧
        (recur cch s).1 = ds.printCandidate (reattach c r)) :
    (processList ds recur cache raw l).2 = cache ∨
    ∃ k c r, (processList ds recur cache raw l).2 = (k, reattach c r) :: cache ∧
      (processList ds recur cache raw l).1 = ds.printCandidate (reattach c r) := by
  induction l with
  | nil => left; rfl
  | cons c rest ih =>
      simp only [processList]
      cases hs : stepCandidate ds cache raw c with
      | skip => exact ih
      | canon s => exact hr cache s
      | done out cache2 =>
          rcases stepCandidate_done_elim ds cache raw c out cache2 hs with
            ⟨hc, _⟩ | ⟨r, _, hc, ho⟩
          · left; exact hc
          · right; exact ⟨baseStr ds c, c, r, hc, ho⟩

/-- Any call leaves the cache alone or pushes exactly one reattached entry
whose printed form is the returned text. -/
theorem migrateFuel_cacheShape (ds : DesignSystem) :
    ∀ (fuel : Nat) (cache : Cache) (raw : String),
    (migrateFuel ds fuel cache raw).2 = cache ∨
    ∃ k c r, (migrateFuel ds fuel cache raw).2 = (k, reattach c r) :: cache ∧
      (migrateFuel ds fuel cache raw).1 = ds.printCandidate (reattach c r) := by
  intro fuel
  induction fuel with
  | zero => intro cache raw; left; rfl
  | succ n ih =>
      intro cache raw
      exact processList_cacheShape ds _ cache raw (ds.parseCandidate raw)
        fun cch s => ih cch s

/-- Under print idempotence a call on an already-printed text never consumes a
second unit of fuel, so its value does not depend on the fuel. -/
theorem migrateFuel_stable (ds : DesignSystem)
    (hIdem : ∀ t : Candidate, ∀ u ∈ ds.parseCandidate (ds.printCandidate t),
      ds.printCandidate u = ds.printCandidate t)
    (cache : Cache) (t : Candidate) (f g : Nat) :
    migrateFuel ds (f + 1) cache (ds.printCandidate t)
      = migrateFuel ds (g + 1) cache (ds.printCandidate t) := by
  simp only [migrateFuel]
  apply processList_congr
  intro c hc he hne
  exact absurd (hIdem t c hc) hne

/-- C1: for every successful rewrite, the acceptance loop only returns a
candidate whose printed text has a computable string signature equal to the
computed signature of the base form (variants cleared, important false) of the
original token; a candidate whose printed text has a different or non-string
signature is never accepted. -/
theorem claim_C1_signature_preservation (ds : DesignSystem) (c r : Candidate)
    (h : searchResult ds c = some r) :
    ds.signatures (ds.printCandidate r) = ds.signatures (baseStr ds c) ∧
    ∃ s, ds.signatures (ds.printCandidate r) = some s := by
  unfold searchResult at h
  cases hb : ds.signatures (baseStr ds c) with
  | none => rw [hb] at h; simp at h
  | some sig =>
      rw [hb] at h
      have h2 := firstValid_some ds sig c _ r h
      exact ⟨h2.1, sig, h2.1⟩

/-- C1 witness: a concrete successful search whose accepted replacement has
the base signature of the original token. -/
theorem claim_C1_witness :
    searchResult dsC9 cA = some cB ∧
    dsC9.signatures (dsC9.printCandidate cB) = dsC9.signatures (baseStr dsC9 cA) :=
  ⟨by decide, (claim_C1_signature_preservation dsC9 cA cB (by decide)).1⟩

/-- C2: the entry point always returns (the Lean model is a total function);
when every parsed candidate fails (no parses at all, an ineligible kind, a
non-computable base signature or an exhausted replacement search — the last
two folded into searchResult being none — under a canonical input and a cache
miss), the original input string is returned unchanged, for the real fuel and
for every fuel. -/
theorem claim_C2_no_candidate_noop (ds : DesignSystem) (cache : Cache)
    (raw : String)
    (h : ∀ c ∈ ds.parseCandidate raw, eligible c = false ∨
      (ds.printCandidate c = raw ∧ lookupCache cache (baseStr ds c) = none ∧
        searchResult ds c = none)) :
    migrateArbitraryUtilities ds cache raw = (raw, cache) ∧
    ∀ fuel, migrateFuel ds fuel cache raw = (raw, cache) := by
  have key : ∀ fuel, migrateFuel ds fuel cache raw = (raw, cache) := fun fuel =>
    migrateFuel_noop ds fuel cache raw fun c hc =>
      stepCandidate_skip_of ds cache raw c (h c hc)
  exact ⟨key _, key⟩

/-- C2 witness: on a design system whose parser yields nothing, the token is
returned unchanged. -/
theorem claim_C2_witness :
    (∀ c ∈ dsBase.parseCandidate "x", eligible c = false ∨
      (dsBase.printCandidate c = "x" ∧ lookupCache [] (baseStr dsBase c) = none ∧
        searchResult dsBase c = none)) ∧
    migrateArbitraryUtilities dsBase [] "x" = ("x", []) :=
  ⟨by decide, (claim_C2_no_candidate_noop dsBase [] "x" (by decide)).1⟩

/-- C3: a signature whose bucket holds two or more catalog entries makes the
replacement search yield no candidate at all, and a token whose parses are all
either ineligible or canonical cache misses with such an ambiguous base
signature is returned unchanged. -/
theorem claim_C3_ambiguous_bucket (ds : DesignSystem) (cache : Cache)
    (raw sig : String) (t : Candidate)
    (hb : 2 ≤ (preComputedUtilities ds sig).length)
    (hscen : ∀ c ∈ ds.parseCandidate raw, eligible c = true →
      ds.printCandidate c = raw ∧ lookupCache cache (baseStr ds c) = none ∧
      ∃ s, ds.signatures (baseStr ds c) = some s ∧
        2 ≤ (preComputedUtilities ds s).length) :
    tryReplacements ds sig t = [] ∧
    migrateArbitraryUtilities ds cache raw = (raw, cache) := by
  refine ⟨tryReplacements_nil_of_ambiguous ds sig t hb, ?_⟩
  apply migrateFuel_noop
  intro c hc
  apply stepCandidate_skip_of
  by_cases he : eligible c = true
  · right
    obtain ⟨h1, h2, s, hs, hlen⟩ := hscen c hc he
    refine ⟨h1, h2, ?_⟩
    unfold searchResult
    rw [hs]
    show firstValid ds s c (tryReplacements ds s (baseCandidate c)) = none
    rw [tryReplacements_nil_of_ambiguous ds s (baseCandidate c) hlen]
    rfl
  · left
    simpa using he

/-- C3 witness: a design system whose two catalog entries share the signature
of the parsed token leaves the token unchanged. -/
theorem claim_C3_witness :
    2 ≤ (preComputedUtilities dsC3 "T").length ∧
    tryReplacements dsC3 "T" cA = [] ∧
    migrateArbitraryUtilities dsC3 [] "[a:1]" = ("[a:1]", []) := by
  have hscen : ∀ c ∈ dsC3.parseCandidate "[a:1]", eligible c = true →
      dsC3.printCandidate c = "[a:1]" ∧ lookupCache [] (baseStr dsC3 c) = none ∧
      ∃ s, dsC3.signatures (baseStr dsC3 c) = some s ∧
        2 ≤ (preComputedUtilities dsC3 s).length := by
    intro c hc _
    have hparse : dsC3.parseCandidate "[a:1]" = [cA] := rfl
    rw [hparse] at hc
    have hc2 : c = cA := by simpa using hc
    subst hc2
    exact ⟨by decide, by decide, "T", by decide, by decide⟩
  have h := claim_C3_ambiguous_bucket dsC3 [] "[a:1]" "T" cA (by decide) hscen
  exact ⟨by decide, h.1, h.2⟩

/-- C4 counterexample: the Variable Safety Check accepts a replacement whose
computed CSS references the original variable --x with the fallback 2px while
the original value referenced it with the fallback 1px: the replacement text
contains no reference with the original fallback syntax, yet the check
accepts, so acceptance does not require the same fallback syntax. -/
theorem claim_C4_counterexample :
    allVariablesAreUsed dsC4 candC4 replC4 = true ∧
    varValue? candC4 = some "var(--x,1px)" ∧
    collectVars (dsC4.parseValue "var(--x,1px)") = ["--x"] ∧
    replacementAsCss dsC4 replC4 = "color: var(--x,2px)" ∧
    strContains (replacementAsCss dsC4 replC4) "var(--x,1px)" = false := by
  have hval : varValue? candC4 = some "var(--x,1px)" := by decide
  have hp : dsC4.parseValue "var(--x,1px)"
      = [ValueNode.func "var"
          [ValueNode.word "--x", ValueNode.separator ",", ValueNode.word "1px"]] := rfl
  have hcv : collectVars (dsC4.parseValue "var(--x,1px)") = ["--x"] := by
    rw [hp]; simp [collectVars, ValueNode.value]
  have hall : allVariablesAreUsed dsC4 candC4 replC4 = true := by
    unfold allVariablesAreUsed
    rw [hval]
    show walkCheck (varUsedOk (replacementAsCss dsC4 replC4))
        (dsC4.parseValue "var(--x,1px)") = true
    rw [walkCheck_eq_all, hcv]
    decide
  exact ⟨hall, hval, hcv, by decide, by decide⟩

/-- C4 amended: the Variable Safety Check accepts exactly when, for every
variable reference node found in the parsed original value, the replacement's
computed CSS text contains a reference var(VARIABLE immediately followed by a
comma or a closing parenthesis (the same variable, with any or no fallback)
and does not contain VARIABLE: (no redefinition); when the original value
carries no variable reference the check accepts unconditionally. -/
theorem claim_C4_amended (ds : DesignSystem) (cand repl : Candidate) :
    allVariablesAreUsed ds cand repl = true ↔
      ∀ val, varValue? cand = some val →
        ∀ v ∈ collectVars (ds.parseValue val),
          varUsedOk (replacementAsCss ds repl) v = true := by
  unfold allVariablesAreUsed
  cases hv : varValue? cand with
  | none => simp
  | some val =>
      show walkCheck (varUsedOk (replacementAsCss ds repl)) (ds.parseValue val)
          = true ↔ _
      rw [walkCheck_eq_all]
      simp [List.all_eq_true]

/-- C4 amended witness: the amended characterization evaluated on the concrete
accepting instance. -/
theorem claim_C4_amended_witness :
    allVariablesAreUsed dsC4 candC4 replC4 = true ∧
    ∀ val, varValue? candC4 = some val →
      ∀ v ∈ collectVars (dsC4.parseValue val),
        varUsedOk (replacementAsCss dsC4 replC4) v = true := by
  have h : ∀ val, varValue? candC4 = some val →
      ∀ v ∈ collectVars (dsC4.parseValue val),
        varUsedOk (replacementAsCss dsC4 replC4) v = true := by
    intro val hval v hv
    have h0 : varValue? candC4 = some "var(--x,1px)" := by decide
    obtain rfl : val = "var(--x,1px)" :=
      (Option.some.inj (h0.symm.trans hval)).symm
    have hp : dsC4.parseValue "var(--x,1px)"
        = [ValueNode.func "var"
            [ValueNode.word "--x", ValueNode.separator ",", ValueNode.word "1px"]] := rfl
    rw [hp] at hv
    have hcv : collectVars
        [ValueNode.func "var"
          [ValueNode.word "--x", ValueNode.separator ",", ValueNode.word "1px"]]
        = ["--x"] := by
      simp [collectVars, ValueNode.value]
    rw [hcv] at hv
    have hv2 : v = "--x" := by simpa using hv
    subst hv2
    decide
  exact ⟨(claim_C4_amended dsC4 candC4 replC4).mpr h, h⟩

/-- C5: in the functional-utility derivation, the bare-value-with-modifier
template interpolates the modifier object itself, so the generated text ends
in the JavaScript object stringification [object Object] instead of the
printed /50 modifier form the claim (and the sibling templates, which call
printModifier) would produce; such a candidate string can never parse as the
intended root-value/modifier utility. -/
theorem claim_C5_modifier_interpolation :
    rootCandidateStrings "#008000" (some (CandidateModifier.named "50")) none
        dsBase "bg"
      = ["bg-#008000", "bg-#008000[object Object]", "bg-[#008000]",
          "bg-[#008000]/50"] ∧
    "bg-#008000" ++ printModifier (CandidateModifier.named "50")
      = "bg-#008000/50" ∧
    ("bg-#008000[object Object]" : String) ≠ "bg-#008000/50" := by decide

/-- C6 counterexample: migrating hover:[a:1] (a token with a variant and the
important flag) stores a cache entry whose candidate carries that variant and
that flag, because the stored object is mutated after insertion; the cached
candidate is not the base replacement. -/
theorem claim_C6_counterexample :
    (migrateArbitraryUtilities dsC6 [] "hover:[a:1]").2
      = [("[a:1]", Candidate.static "u1" ["hover"] true)] ∧
    (Candidate.static "u1" ["hover"] true).variants = ["hover"] ∧
    (Candidate.static "u1" ["hover"] true).important = true := by decide

/-- C6 amended: every call either leaves the cache unchanged or pushes exactly
one entry, and that entry is the reattached replacement — the accepted
candidate carrying the variants and important flag of the token that caused
the entry (the source mutates the stored object after Map.set) — whose printed
form is exactly the returned text. -/
theorem claim_C6_amended (ds : DesignSystem) (fuel : Nat) (cache : Cache)
    (raw : String) :
    (migrateFuel ds fuel cache raw).2 = cache ∨
    ∃ k c r, (migrateFuel ds fuel cache raw).2 = (k, reattach c r) :: cache ∧
      (migrateFuel ds fuel cache raw).1 = ds.printCandidate (reattach c r) ∧
      (reattach c r).variants = c.variants ∧
      (reattach c r).important = c.important := by
  rcases migrateFuel_cacheShape ds fuel cache raw with h | ⟨k, c, r, h1, h2⟩
  · exact Or.inl h
  · exact Or.inr ⟨k, c, r, h1, h2, reattach_variants c r, reattach_important c r⟩

/-- C7 counterexample: a raw text whose first parse is ineligible is still
rewritten through its second parse, so the engine does not process only the
first parsed token. -/
theorem claim_C7_counterexample :
    dsC7.parseCandidate "[a:1]" = [cS0, cA] ∧ eligible cS0 = false ∧
    (migrateArbitraryUtilities dsC7 [] "[a:1]").1 = "u1" ∧
    ("u1" : String) ≠ "[a:1]" := by decide

/-- C7 amended: the parses are processed in order; a parse that is ineligible,
has a non-computable base signature or yields no accepted replacement is
skipped and the next parse is processed, while the first parse that triggers a
canonicalization recursion, a cache hit or an accepted replacement determines
the result and every later parse is ignored. -/
theorem claim_C7_amended (ds : DesignSystem)
    (recur : Cache → String → String × Cache) (cache : Cache) (raw : String)
    (c : Candidate) (rest : List Candidate) :
    (stepCandidate ds cache raw c = .skip →
      processList ds recur cache raw (c :: rest)
        = processList ds recur cache raw rest) ∧
    (∀ s, stepCandidate ds cache raw c = .canon s →
      processList ds recur cache raw (c :: rest) = recur cache s) ∧
    (∀ out cache2, stepCandidate ds cache raw c = .done out cache2 →
      processList ds recur cache raw (c :: rest) = (out, cache2)) := by
  refine ⟨fun h => ?_, fun s h => ?_, fun out cache2 h => ?_⟩ <;>
    simp only [processList, h]

/-- C7 amended witness: the ineligible first parse of the counterexample is
skipped and processing continues with the remaining parses. -/
theorem claim_C7_amended_witness :
    stepCandidate dsC7 [] "[a:1]" cS0 = StepOut.skip ∧
    processList dsC7 (fun cch s => (s, cch)) [] "[a:1]" [cS0, cA]
      = processList dsC7 (fun cch s => (s, cch)) [] "[a:1]" [cA] :=
  ⟨by decide, (claim_C7_amended dsC7 (fun cch s => (s, cch)) [] "[a:1]" cS0 [cA]).1
    (by decide)⟩

/-- C8: under print idempotence (any parse of a printed text prints back to
that text) the canonicalization recursion terminates: the computation is
independent of the fuel once it admits the one recursion step ever needed, so
the entry point with its length-derived fuel equals the two-step bound, and
the recursion is taken only when the printed form differs from the current
input (stepCandidate_canon_elim). -/
theorem claim_C8_termination (ds : DesignSystem) (cache : Cache) (raw : String)
    (hIdem : ∀ t : Candidate, ∀ u ∈ ds.parseCandidate (ds.printCandidate t),
      ds.printCandidate u = ds.printCandidate t) :
    migrateArbitraryUtilities ds cache raw = migrateFuel ds 2 cache raw ∧
    ∀ fuel, 2 ≤ fuel → migrateFuel ds fuel cache raw = migrateFuel ds 2 cache raw := by
  have key : ∀ k : Nat, migrateFuel ds (k + 2) cache raw
      = migrateFuel ds 2 cache raw := by
    intro k
    have h1 : migrateFuel ds (k + 2) cache raw
        = processList ds (migrateFuel ds (k + 1)) cache raw
            (ds.parseCandidate raw) := rfl
    have h2 : migrateFuel ds 2 cache raw
        = processList ds (migrateFuel ds 1) cache raw
            (ds.parseCandidate raw) := rfl
    rw [h1, h2]
    apply processList_congr
    intro c hc he hne
    exact migrateFuel_stable ds hIdem cache c k 0
  refine ⟨key raw.length, ?_⟩
  intro fuel hf
  obtain ⟨k, rfl⟩ : ∃ k, fuel = k + 2 := ⟨fuel - 2, by omega⟩
  exact key k

/-- C8 witness: a design system with an idempotent (empty) parser evaluated at
fuel five and fuel two. -/
theorem claim_C8_termination_witness :
    (∀ t : Candidate, ∀ u ∈ dsBase.parseCandidate (dsBase.printCandidate t),
      dsBase.printCandidate u = dsBase.printCandidate t) ∧
    migrateFuel dsBase 5 [] "x" = migrateFuel dsBase 2 [] "x" := by
  have hIdem : ∀ t : Candidate,
      ∀ u ∈ dsBase.parseCandidate (dsBase.printCandidate t),
      dsBase.printCandidate u = dsBase.printCandidate t := by
    intro t u hu
    simp [dsBase] at hu
  exact ⟨hIdem, (claim_C8_termination dsBase [] "x" hIdem).2 5 (by omega)⟩

/-- C9 counterexample: a design system (with idempotent printing) on which the
pipeline is not idempotent: the first pass rewrites [a:1] to u1root-1, and a
second pass over that output rewrites it further to u1root-2. -/
theorem claim_C9_counterexample :
    (migrateArbitraryUtilities dsC9 [] "[a:1]").1 = "u1root-1" ∧
    (migrateArbitraryUtilities dsC9
        (migrateArbitraryUtilities dsC9 [] "[a:1]").2
        (migrateArbitraryUtilities dsC9 [] "[a:1]").1).1 = "u1root-2" ∧
    ("u1root-2" : String) ≠ "u1root-1" := by decide

/-- C9 amended: a second pass is a no-op whenever no parse of the first pass's
output is eligible (an arbitrary property or a functional utility with an
arbitrary value) — in particular when the output re-parses to a static or
named-value utility or does not re-parse at all; idempotence is not guaranteed
when the output re-parses to an eligible candidate. -/
theorem claim_C9_amended (ds : DesignSystem) (fuel fuel2 : Nat) (cache : Cache)
    (raw : String)
    (h : ∀ u ∈ ds.parseCandidate (migrateFuel ds fuel cache raw).1,
      eligible u = false) :
    migrateFuel ds fuel2 (migrateFuel ds fuel cache raw).2
        (migrateFuel ds fuel cache raw).1
      = ((migrateFuel ds fuel cache raw).1, (migrateFuel ds fuel cache raw).2) :=
  migrateFuel_noop ds fuel2 _ _ fun c hc =>
    stepCandidate_skip_of _ _ _ _ (Or.inl (h c hc))

/-- C9 amended witness: the rewritten output of the dsC6 run does not re-parse
to an eligible candidate, so the second pass returns it unchanged. -/
theorem claim_C9_amended_witness :
    (∀ u ∈ dsC6.parseCandidate (migrateFuel dsC6 3 [] "hover:[a:1]").1,
      eligible u = false) ∧
    migrateFuel dsC6 3 (migrateFuel dsC6 3 [] "hover:[a:1]").2
        (migrateFuel dsC6 3 [] "hover:[a:1]").1
      = ((migrateFuel dsC6 3 [] "hover:[a:1]").1,
          (migrateFuel dsC6 3 [] "hover:[a:1]").2) :=
  ⟨by decide, claim_C9_amended dsC6 3 3 [] "hover:[a:1]" (by decide)⟩

/-- C10: on a cache hit the returned text is the print of the cached candidate
with the current token's variants and important flag reattached: the result is
unchanged if the cached entry's variants or important flag are overwritten
arbitrarily, and the reattached candidate carries exactly the current token's
variants and important flag; the cache itself is left untouched. -/
theorem claim_C10_cache_hit (ds : DesignSystem)
    (recur : Cache → String → String × Cache) (cache : Cache) (raw : String)
    (c : Candidate) (rest : List Candidate) (v : Candidate)
    (he : eligible c = true) (hp : ds.printCandidate c = raw)
    (hh : lookupCache cache (baseStr ds c) = some v) :
    processList ds recur cache raw (c :: rest)
      = (ds.printCandidate (reattach c v), cache) ∧
    (∀ vs i, reattach c ((v.setVariants vs).setImportant i) = reattach c v) ∧
    (reattach c v).variants = c.variants ∧
    (reattach c v).important = c.important := by
  have hs : stepCandidate ds cache raw c
      = .done (ds.printCandidate (reattach c v)) cache := by
    unfold stepCandidate
    simp [he, hp, hh]
  refine ⟨?_, fun vs i => reattach_overwrite c v vs i, reattach_variants c v,
    reattach_important c v⟩
  simp only [processList, hs]

/-- C10 witness: a concrete cache hit for the variant-carrying token cAV. -/
theorem claim_C10_witness :
    eligible cAV = true ∧ dsC6.printCandidate cAV = "hover:[a:1]" ∧
    lookupCache [("[a:1]", cU1)] (baseStr dsC6 cAV) = some cU1 ∧
    processList dsC6 (fun cch s => (s, cch)) [("[a:1]", cU1)] "hover:[a:1]" [cAV]
      = (dsC6.printCandidate (reattach cAV cU1), [("[a:1]", cU1)]) :=
  ⟨by decide, by decide, by decide,
    (claim_C10_cache_hit dsC6 (fun cch s => (s, cch)) [("[a:1]", cU1)]
      "hover:[a:1]" cAV [] cU1 (by decide) (by decide) (by decide)).1⟩
